import Mathlib

/-!
Verification of the brace-balance locator scripts and the condition.aff
repair script of the Hunspell.NET auxiliary tooling.

Lines of a file are modelled as lists of characters (Python reads each
line including its trailing newline).  The balance counter is an integer
updated per character exactly as the source loops do.
-/

/-- One line of text, as Python iterates over its characters. -/
abbrev Line := List Char

/-- The inner character loop shared by all three scripts:
for each character of the line, an opening brace increments the
counter, a closing brace decrements it, anything else is ignored.
Source: src/tools/debug_braces.py lines 6-8 (and the identical loops in
check_method_braces.py and find_premature_close.py). -/
def scanStep (bal : Int) (line : Line) : Int :=
  line.foldl (fun b c => if c = '\x7b' then b + 1 else if c = '\x7d' then b - 1 else b) bal

/-- Cumulative balance after the first `i` lines, counting from 0. -/
def balAfter (lines : List Line) (i : Nat) : Int :=
  (lines.take i).foldl scanStep 0

/-- Outcome of the debug_braces scan: the line at which the counter
first went negative (if any), and the last line at which the counter
was zero (the sentinel `none` meaning no such line). -/
structure ScanResult where
  negAt : Option Nat
  lastZero : Option Nat
deriving DecidableEq, Repr

/-- Main loop of src/tools/debug_braces.py lines 5-13: lines are
numbered from 1; after each line, a zero counter updates `last_zero`,
and a negative counter stops the scan. -/
def scanFromStartGo (bal : Int) (i : Nat) (lastZero : Option Nat) :
    List Line → ScanResult
  | [] => ⟨none, lastZero⟩
  | l :: rest =>
    let b := scanStep bal l
    let lz := if b = 0 then some i else lastZero
    if b < 0 then ⟨some i, lz⟩ else scanFromStartGo b (i + 1) lz rest

/-- The debug_braces scan (`scanFromStart` in the specification). -/
def scanFromStart (lines : List Line) : ScanResult :=
  scanFromStartGo 0 1 none lines

/-- A line consisting of a single opening brace. -/
def braceOpenLine : Line := ['\x7b', '\n']

/-- A line consisting of a single closing brace. -/
def braceCloseLine : Line := ['\x7d', '\n']

/-- C1: for every three-line input whose per-line cumulative counter
sequence is 1, 0, -1, the debug_braces scan reports last balanced line 2
and first negative transition at line 3. -/
theorem scanFromStart_seq_one_zero_neg (lines : List Line)
    (hlen : lines.length = 3)
    (h1 : balAfter lines 1 = 1) (h2 : balAfter lines 2 = 0)
    (h3 : balAfter lines 3 = -1) :
    scanFromStart lines = ⟨some 3, some 2⟩ := by
  match lines, hlen with
  | [a, b, c], _ =>
    simp only [balAfter, List.take, List.foldl] at h1 h2 h3
    rw [h1] at h2 h3
    rw [h2] at h3
    simp [scanFromStart, scanFromStartGo, h1, h2, h3]

/-- Witness for C1: the concrete input of one opening brace followed by
two closing braces. -/
theorem scanFromStart_seq_one_zero_neg_witness :
    scanFromStart [braceOpenLine, braceCloseLine, braceCloseLine] =
      ⟨some 3, some 2⟩ :=
  scanFromStart_seq_one_zero_neg _ (by decide) (by decide) (by decide) (by decide)

/-- C8: on the empty input the scan reports the sentinel for the last
balanced line, no negative transition, and the counter is 0 after every
prefix. -/
theorem scanFromStart_empty :
    scanFromStart [] = ⟨none, none⟩ ∧ ∀ i, balAfter [] i = 0 := by
  constructor
  · rfl
  · intro i; simp [balAfter]

/-- Loop invariant of the debug_braces scan: every recorded last-zero
line lies strictly before the current line number, so the reported
last-zero line is at most the line of the negative transition. -/
theorem scanFromStartGo_lastZero_le (lines : List Line) :
    ∀ (bal : Int) (i : Nat) (lz : Option Nat) (n z : Nat),
      (∀ z0, lz = some z0 → z0 < i) →
      (scanFromStartGo bal i lz lines).negAt = some n →
      (scanFromStartGo bal i lz lines).lastZero = some z →
      z ≤ n := by
  induction lines with
  | nil =>
    intro bal i lz n z _ hneg _
    simp [scanFromStartGo] at hneg
  | cons l rest ih =>
    intro bal i lz n z hlz hneg hzero
    simp only [scanFromStartGo] at hneg hzero
    by_cases hb : scanStep bal l < 0
    · rw [if_pos hb] at hneg hzero
      have hb0 : ¬ scanStep bal l = 0 := by omega
      simp [hb0] at hzero hneg
      have : z < i := hlz z (by rw [hzero])
      omega
    · rw [if_neg hb] at hneg hzero
      refine ih (scanStep bal l) (i + 1) _ n z ?_ hneg hzero
      intro z0 hz0
      by_cases hb0 : scanStep bal l = 0
      · rw [if_pos hb0] at hz0
        have : z0 = i := by injection hz0 with h; omega
        omega
      · rw [if_neg hb0] at hz0
        have := hlz z0 hz0
        omega

/-- C4: whenever the debug_braces scan observes a negative counter at
line n and reports a non-sentinel last balanced line z, z is at most n. -/
theorem scanFromStart_lastZero_le_negAt (lines : List Line) (n z : Nat)
    (hneg : (scanFromStart lines).negAt = some n)
    (hzero : (scanFromStart lines).lastZero = some z) :
    z ≤ n :=
  scanFromStartGo_lastZero_le lines 0 1 none n z (by simp) hneg hzero

/-- Witness for C4 on the input with counter sequence 1, 0, -1. -/
theorem scanFromStart_lastZero_le_negAt_witness : (2 : Nat) ≤ 3 :=
  scanFromStart_lastZero_le_negAt
    [braceOpenLine, braceCloseLine, braceCloseLine] 3 2 (by decide) (by decide)

/-- If every end-of-line cumulative balance from the current state on is
zero, the debug_braces loop never takes the negative branch. -/
theorem scanFromStartGo_negAt_none (lines : List Line) :
    ∀ (bal : Int) (i : Nat) (lz : Option Nat),
      (∀ k, k < lines.length → (lines.take (k + 1)).foldl scanStep bal = 0) →
      (scanFromStartGo bal i lz lines).negAt = none := by
  induction lines with
  | nil => intro bal i lz _; simp [scanFromStartGo]
  | cons l rest ih =>
    intro bal i lz h
    have h0 : scanStep bal l = 0 := by
      have := h 0 (by simp)
      simpa using this
    simp only [scanFromStartGo, h0]
    rw [if_neg (by omega)]
    refine ih 0 (i + 1) (some i) ?_
    intro k hk
    have := h (k + 1) (by simpa using Nat.succ_lt_succ hk)
    rw [List.take_succ_cons, List.foldl_cons, h0] at this
    exact this

/-- C5: for inputs whose cumulative counter is zero after every line,
the debug_braces scan never reports a negative transition. -/
theorem scanFromStart_balanced_no_negative (lines : List Line)
    (h : ∀ k, k < lines.length → balAfter lines (k + 1) = 0) :
    (scanFromStart lines).negAt = none :=
  scanFromStartGo_negAt_none lines 0 1 none h

/-- A two-line fully balanced sample input. -/
def balancedPairLine : Line := ['\x7b', '\x7d', '\n']

/-- Witness for C5 on a two-line input balanced after each line. -/
theorem scanFromStart_balanced_no_negative_witness :
    (scanFromStart [balancedPairLine, balancedPairLine]).negAt = none :=
  scanFromStart_balanced_no_negative [balancedPairLine, balancedPairLine]
    (by decide)

/-- C9: the counter is inspected only at line ends: a line that dips
below zero mid-line but ends non-negative produces no negative report,
and if it ends at zero it is recorded as a balanced line. -/
theorem scanFromStart_midline_dip_ignored (cs : Line)
    (hdip : ∃ k, scanStep 0 (cs.take k) < 0)
    (hend : 0 ≤ scanStep 0 cs) :
    (scanFromStart [cs]).negAt = none ∧
      (scanStep 0 cs = 0 → (scanFromStart [cs]).lastZero = some 1) := by
  constructor
  · simp only [scanFromStart, scanFromStartGo]
    rw [if_neg (by omega)]
  · intro h0
    simp [scanFromStart, scanFromStartGo, h0]

/-- The single line closing brace then opening brace: the counter dips
to -1 mid-line and returns to 0 by the end of the line. -/
def dipLine : Line := ['\x7d', '\x7b', '\n']

/-- Witness for C9 on that single-line input. -/
theorem scanFromStart_midline_dip_ignored_witness :
    (scanFromStart [dipLine]).negAt = none ∧
      (scanStep 0 dipLine = 0 → (scanFromStart [dipLine]).lastZero = some 1) :=
  scanFromStart_midline_dip_ignored dipLine ⟨1, by decide⟩ (by decide)

/-- Python substring containment, prefix part: does `pat` start `l`. -/
def isPre (pat l : Line) : Bool :=
  match pat, l with
  | [], _ => true
  | _ :: _, [] => false
  | p :: ps, c :: cs => p == c && isPre ps cs

/-- Python substring containment: the test `pat in l`. -/
def hasSub (pat l : Line) : Bool :=
  match l with
  | [] => pat.isEmpty
  | _ :: cs => isPre pat l || hasSub pat cs

/-- Search for the first (1-based, counting from `i`) line containing
`pat`, as the marker loops of find_premature_close.py lines 4-7 and
check_method_braces.py lines 7-10 do. -/
def findMarkerGo (pat : Line) (i : Nat) : List Line → Option Nat
  | [] => none
  | l :: rest => if hasSub pat l then some i else findMarkerGo pat (i + 1) rest

/-- First 1-based line number containing `pat`, or the sentinel. -/
def findMarker (pat : Line) (lines : List Line) : Option Nat :=
  findMarkerGo pat 1 lines

/-- The marker of find_premature_close.py line 5. -/
def fpcMarker : Line := "internal sealed class AffixManager".data

/-- Second loop of find_premature_close.py lines 13-19: with the marker
position `m` (None when the marker was absent), accumulate the counter
from line 1 and stop at the first line i with i >= m and counter zero.
When `m` is `none`, Python evaluates `i >= None` on the first iteration
and raises a TypeError, modelled as `Except.error ()`. -/
def fpcScanGo (m : Option Nat) (bal : Int) (i : Nat) :
    List Line → Except Unit (Option Nat)
  | [] => Except.ok none
  | l :: rest =>
    let b := scanStep bal l
    match m with
    | none => Except.error ()
    | some mv =>
      if mv ≤ i ∧ b = 0 then Except.ok (some i) else fpcScanGo m b (i + 1) rest

/-- The marker-relative zero-balance scan (`scanFromMarker`). -/
def fpcScan (m : Option Nat) (lines : List Line) : Except Unit (Option Nat) :=
  fpcScanGo m 0 1 lines

deriving instance DecidableEq for Except

/-- Combined result of running find_premature_close.py. -/
structure FpcOut where
  start_class : Option Nat
  first_zero : Except Unit (Option Nat)
deriving DecidableEq, Repr

/-- The whole of find_premature_close.py on a given list of lines:
locate the marker, then run the zero-balance scan with whatever the
marker search produced (including None). -/
def fpcRun (lines : List Line) : FpcOut :=
  ⟨findMarker fpcMarker lines, fpcScan (findMarker fpcMarker lines) lines⟩

/-- Specification-side description of `scanFromMarker`: the first line
index i in 1..n with i at or after the marker m and cumulative balance
(counted from line 1) equal to zero.  Written from the specification
text, to be compared with the source-derived scan. -/
def specFirstZeroAtOrAfter (m : Nat) (lines : List Line) : Option Nat :=
  (List.range' 1 lines.length).find?
    (fun j => decide (m ≤ j ∧ balAfter lines j = 0))

/-- Two predicates agreeing on every element of a list find the same
first element. -/
theorem findOpt_congr {α : Type} {p q : α → Bool} :
    ∀ l : List α, (∀ a, a ∈ l → p a = q a) → l.find? p = l.find? q := by
  intro l
  induction l with
  | nil => intro _; rfl
  | cons a tl ih =>
    intro h
    by_cases ha : p a
    · rw [List.find?_cons_of_pos tl ha,
        List.find?_cons_of_pos tl (by rw [← h a (by simp)]; exact ha)]
    · rw [List.find?_cons_of_neg tl ha,
        List.find?_cons_of_neg tl (by rw [← h a (by simp)]; exact ha),
        ih (fun x hx => h x (by simp [hx]))]

/-- Unfolding lemma for the marker-relative scan: starting at line i
with accumulator `bal`, the scan returns the first j >= i satisfying
the marker-and-zero condition over the remaining lines. -/
theorem fpcScanGo_eq_find (rest : List Line) :
    ∀ (m : Nat) (bal : Int) (i : Nat),
      fpcScanGo (some m) bal i rest =
        Except.ok ((List.range' i rest.length).find?
          (fun j => decide (m ≤ j ∧ (rest.take (j + 1 - i)).foldl scanStep bal = 0))) := by
  induction rest with
  | nil => intro m bal i; simp [fpcScanGo]
  | cons l tl ih =>
    intro m bal i
    have hfold : ((l :: tl).take (i + 1 - i)).foldl scanStep bal = scanStep bal l := by
      simp [Nat.add_sub_cancel_left]
    rw [List.length_cons, List.range'_succ]
    by_cases hc : m ≤ i ∧ scanStep bal l = 0
    · rw [List.find?_cons_of_pos _ (by simpa [hfold] using hc)]
      simp only [fpcScanGo]
      rw [if_pos hc]
    · rw [List.find?_cons_of_neg _ (by simpa [hfold] using hc)]
      simp only [fpcScanGo]
      rw [if_neg hc, ih m (scanStep bal l) (i + 1)]
      congr 1
      apply findOpt_congr
      intro j hj
      have hij : i + 1 ≤ j := by
        rcases List.mem_range'.mp hj with ⟨k, _, rfl⟩
        omega
      have harith : j + 1 - i = (j + 1 - (i + 1)) + 1 := by omega
      rw [harith, List.take_succ_cons, List.foldl_cons]

/-- C2: for every file and valid marker line index m, the
find_premature_close scan accumulates the counter from line 1 and
reports the first line at or after m where the counter is zero,
matching the specification-side description. -/
theorem fpcScan_eq_spec (lines : List Line) (m : Nat)
    (_hm1 : 1 ≤ m) (_hm2 : m ≤ lines.length) :
    fpcScan (some m) lines = Except.ok (specFirstZeroAtOrAfter m lines) := by
  rw [fpcScan, fpcScanGo_eq_find lines m 0 1, specFirstZeroAtOrAfter]
  congr 1

/-- The five-line example: two opens, one close, a marker line, a close. -/
def fiveLines : List Line :=
  [braceOpenLine, braceOpenLine, braceCloseLine, ['X', '\n'], braceCloseLine]

/-- Witness for C2: on the five-line example with marker at line 4 the
scan reports line 5. -/
theorem fpcScan_eq_spec_witness :
    fpcScan (some 4) fiveLines = Except.ok (specFirstZeroAtOrAfter 4 fiveLines) ∧
      fpcScan (some 4) fiveLines = Except.ok (some 5) :=
  ⟨fpcScan_eq_spec fiveLines 4 (by decide) (by decide), by decide⟩

/-- C7: both scans are deterministic pure functions of the lines: two
runs on equal line sequences give identical results. -/
theorem scans_deterministic (l1 l2 : List Line) (m : Option Nat)
    (h : l1 = l2) :
    scanFromStart l1 = scanFromStart l2 ∧ fpcScan m l1 = fpcScan m l2 := by
  subst h; exact ⟨rfl, rfl⟩

/-- Witness for C7 at a concrete input. -/
theorem scans_deterministic_witness :
    scanFromStart [braceOpenLine] = scanFromStart [braceOpenLine] ∧
      fpcScan (some 1) [braceOpenLine] = fpcScan (some 1) [braceOpenLine] :=
  scans_deterministic [braceOpenLine] [braceOpenLine] (some 1) rfl

/-- The character loop adds the number of opening braces of the line
and subtracts the number of closing braces. -/
theorem scanStep_count (l : Line) :
    ∀ bal : Int,
      scanStep bal l = bal + (l.count '\x7b' : Int) - (l.count '\x7d' : Int) := by
  induction l with
  | nil => intro bal; simp [scanStep]
  | cons c cs ih =>
    intro bal
    have hstep : scanStep bal (c :: cs)
        = scanStep (if c = '\x7b' then bal + 1 else if c = '\x7d' then bal - 1 else bal) cs := by
      simp [scanStep, List.foldl_cons]
    rw [hstep, ih]
    by_cases h1 : c = '\x7b'
    · subst h1
      rw [List.count_cons_self, List.count_cons_of_ne (by decide), if_pos rfl]
      push_cast
      ring
    · by_cases h2 : c = '\x7d'
      · subst h2
        rw [List.count_cons_self, List.count_cons_of_ne (by decide)]
        simp only [if_neg (by decide : ¬ ('\x7d' : Char) = '\x7b'), if_pos rfl]
        push_cast
        ring
      · rw [List.count_cons_of_ne (fun h => h1 h.symm),
          List.count_cons_of_ne (fun h => h2 h.symm), if_neg h1, if_neg h2]

/-- Folding the character loop over a list of lines from `bal` adds the
brace-count difference of the concatenation. -/
theorem foldl_scanStep_count (L : List Line) :
    ∀ bal : Int,
      L.foldl scanStep bal
        = bal + (L.flatten.count '\x7b' : Int) - (L.flatten.count '\x7d' : Int) := by
  induction L with
  | nil => intro bal; simp
  | cons l tl ih =>
    intro bal
    rw [List.foldl_cons, ih, scanStep_count, List.flatten_cons,
      List.count_append, List.count_append]
    push_cast
    ring

/-- C6: after processing line i the counter equals the total count of
opening braces minus the total count of closing braces over lines 1..i,
an invariant of every scan's accumulator. -/
theorem balAfter_eq_counts (lines : List Line) (i : Nat) :
    balAfter lines i
      = (((lines.take i).flatten.count '\x7b' : Int)
          - ((lines.take i).flatten.count '\x7d' : Int)) := by
  rw [balAfter, foldl_scanStep_count]
  ring

/-- The method signature marker of check_method_braces.py line 3. -/
def cmbSig : Line := "private bool IsValidCompoundPart(string part, int wordCount, int startPos, int endPos, string fullWord, out bool requiresForceUCase)".data

/-- The message printed by check_method_braces.py line 12 before
exiting when the signature is absent. -/
def cmbNotFoundMsg : String := "Method signature not found"

/-- The message printed by check_method_braces.py line 22 before
exiting when no opening brace follows the signature. -/
def cmbNoOpenMsg : String := "No opening brace found for method"

/-- A pattern consisting of a single opening brace. -/
def openBracePat : Line := ['\x7b']

/-- Balance loop of check_method_braces.py lines 27-34: starting from
the first brace line, stop at the first line after which the local
counter is zero. -/
def cmbCloseGo (bal : Int) (k : Nat) : List Line → Option Nat
  | [] => none
  | l :: rest =>
    let b := scanStep bal l
    if b = 0 then some k else cmbCloseGo b (k + 1) rest

/-- Result of a successful run of check_method_braces.py. -/
structure CmbOut where
  sigLine : Nat
  firstOpen : Nat
  endLine : Option Nat
deriving DecidableEq, Repr

/-- The phases of check_method_braces.py: locate the signature line
(exit with a message when absent), locate the first following line that
contains an opening brace (exit with a message when absent), then scan
for the closing line with a counter started at zero from the brace
line. -/
def cmbRun (lines : List Line) : Except String CmbOut :=
  match findMarker cmbSig lines with
  | none => Except.error cmbNotFoundMsg
  | some sigLine =>
    match findMarkerGo openBracePat (sigLine + 1) (lines.drop sigLine) with
    | none => Except.error cmbNoOpenMsg
    | some firstOpen =>
      Except.ok ⟨sigLine, firstOpen, cmbCloseGo 0 firstOpen (lines.drop (firstOpen - 1))⟩

/-- A line not containing any marker. -/
def xLine : Line := ['X', '\n']

/-- Counterexample for C3: on a one-line file without the marker,
find_premature_close still enters the zero-balance scan, which faults
(the Python comparison of the line number with None raises a TypeError,
modelled as the error outcome) instead of reporting a message and
stopping. -/
theorem fpc_marker_missing_faults :
    (fpcRun [xLine]).start_class = none ∧
      (fpcRun [xLine]).first_zero = Except.error () := by
  decide

/-- C3 amended: when the marker is absent, find_premature_close
proceeds into the zero-balance scan anyway and faults on any non-empty
file (reporting the sentinel only for the empty file), while
check_method_braces reports its not-found message and stops before any
brace scanning. -/
theorem marker_missing_behavior (lines : List Line)
    (hf : findMarker fpcMarker lines = none)
    (hc : findMarker cmbSig lines = none) :
    (fpcRun lines).first_zero
        = (if lines = [] then Except.ok none else Except.error ()) ∧
      cmbRun lines = Except.error cmbNotFoundMsg := by
  constructor
  · show fpcScan (findMarker fpcMarker lines) lines = _
    rw [hf]
    cases lines with
    | nil => simp [fpcScan, fpcScanGo]
    | cons l rest => simp [fpcScan, fpcScanGo]
  · rw [cmbRun, hc]

/-- Witness for the amended C3 on the one-line file. -/
theorem marker_missing_behavior_witness :
    (fpcRun [xLine]).first_zero
        = (if ([xLine] : List Line) = [] then Except.ok none else Except.error ()) ∧
      cmbRun [xLine] = Except.error cmbNotFoundMsg :=
  marker_missing_behavior [xLine] (by decide) (by decide)

/-- Is there a closing bracket ahead on the current line before any
newline?  This mirrors the reach of the lazy regex bracket group of
fix_condition_files.py line 35: the dot cannot cross a newline, and the
lazy star stops at the first closing bracket. -/
def closeAhead : Line → Bool
  | [] => false
  | c :: rest => if c = ']' then true else if c = '\n' then false else closeAhead rest

/-- Left-to-right replacement of every non-overlapping lazy bracket
group, as Python re.sub does with the pattern of
fix_condition_files.py line 35: at an opening bracket with a closing
bracket ahead on the line, emit the replacement and skip up to and
including the first closing bracket; every other character is copied. -/
def reSubGo (repl : Line) (skipping : Bool) : Line → Line
  | [] => []
  | c :: rest =>
    if skipping then
      if c = ']' then reSubGo repl false rest else reSubGo repl true rest
    else if c = '[' then
      if closeAhead rest then repl ++ reSubGo repl true rest
      else c :: reSubGo repl false rest
    else c :: reSubGo repl false rest

/-- The substitution applied to a matching line. -/
def reSubBracket (repl : Line) (l : Line) : Line :=
  reSubGo repl false l

/-- The first condition substring of fix_condition_files.py line 30. -/
def sfxzPat : Line := "SFX Z".data

/-- The second condition substring of fix_condition_files.py line 30. -/
def bracketPat : Line := ['[']

/-- The replacement text of fix_condition_files.py line 35. -/
def replText : Line := "[aeioué]".data

/-- The accumulation loop of fix_condition_files.py lines 28-39: lines
containing both condition substrings are appended rewritten, all other
lines are appended unchanged. -/
def pyNewLines (lines : List Line) : List Line :=
  lines.foldl
    (fun acc line =>
      if hasSub sfxzPat line && hasSub bracketPat line
      then acc ++ [reSubBracket replText line]
      else acc ++ [line]) []

/-- The per-line effect of the loop body. -/
def fixLine (line : Line) : Line :=
  if hasSub sfxzPat line && hasSub bracketPat line
  then reSubBracket replText line
  else line

/-- The accumulation loop is the pointwise map of the per-line effect. -/
theorem pyNewLinesGo_eq (lines : List Line) :
    ∀ acc : List Line,
      lines.foldl
        (fun acc line =>
          if hasSub sfxzPat line && hasSub bracketPat line
          then acc ++ [reSubBracket replText line]
          else acc ++ [line]) acc
        = acc ++ lines.map fixLine := by
  induction lines with
  | nil => intro acc; simp
  | cons l tl ih =>
    intro acc
    rw [List.foldl_cons, List.map_cons]
    by_cases hcond : (hasSub sfxzPat l && hasSub bracketPat l) = true
    · rw [if_pos hcond, ih]
      simp [fixLine, hcond]
    · rw [if_neg hcond, ih]
      simp [fixLine, hcond]

/-- C10 amended: the repair rewrites exactly the lines containing both
condition substrings, replacing every lazy bracket group on them; all
other lines are emitted unchanged, and line count and order are
preserved. -/
theorem pyNewLines_frame (lines : List Line) (i : Nat) (h : i < lines.length) :
    (pyNewLines lines).length = lines.length ∧
      (pyNewLines lines).getD i []
        = (if hasSub sfxzPat (lines.getD i []) && hasSub bracketPat (lines.getD i [])
           then reSubBracket replText (lines.getD i [])
           else lines.getD i []) := by
  have hmap : pyNewLines lines = lines.map fixLine := by
    rw [pyNewLines, pyNewLinesGo_eq]
    simp
  constructor
  · rw [hmap, List.length_map]
  · rw [hmap]
    rw [List.getD_eq_getElem _ _ (by simpa using h), List.getD_eq_getElem _ _ h]
    rw [List.getElem_map]
    rfl

/-- A condition.aff line containing two bracket groups. -/
def twoGroupLine : Line := "SFX Z [a][b]".data ++ ['\n']

/-- That line with only its first bracket group replaced. -/
def firstGroupReplacedLine : Line := "SFX Z [aeioué][b]".data ++ ['\n']

/-- That line with both bracket groups replaced. -/
def bothGroupsReplacedLine : Line := "SFX Z [aeioué][aeioué]".data ++ ['\n']

/-- Counterexample for C10: on a line with two bracket groups the code
replaces both groups, not only the first. -/
theorem pyNewLines_not_first_group_only :
    pyNewLines [twoGroupLine] = [bothGroupsReplacedLine] ∧
      bothGroupsReplacedLine ≠ firstGroupReplacedLine := by
  decide

/-- Witness for the amended C10 on a two-line input with one matching
and one non-matching line. -/
theorem pyNewLines_frame_witness :
    (pyNewLines [twoGroupLine, xLine]).length = ([twoGroupLine, xLine] : List Line).length ∧
      (pyNewLines [twoGroupLine, xLine]).getD 1 []
        = (if hasSub sfxzPat (([twoGroupLine, xLine] : List Line).getD 1 [])
              && hasSub bracketPat (([twoGroupLine, xLine] : List Line).getD 1 [])
           then reSubBracket replText (([twoGroupLine, xLine] : List Line).getD 1 [])
           else ([twoGroupLine, xLine] : List Line).getD 1 []) :=
  pyNewLines_frame [twoGroupLine, xLine] 1 (by decide)
